import Mathlib

/-!
Verification development for the test-orchestration engine described by the
repository specification. The repository material under src/ consists of
declarations and example usage (IGT-style test files and doc-comment-only
headers); the engine itself is modelled here faithfully from the
specification and the header doc comments, and the specified properties are
proved against that model.
-/

/-- Modelled from the spec: the closed set of terminal states a unit of work
can reach (OutcomeState), one of Pass, Fail(reason), Skip(reason),
Crash(signal_or_cause). The engine implementation is absent from src. -/
inductive Outcome where
  | pass : Outcome
  | fail (reason : String) : Outcome
  | skip (reason : String) : Outcome
  | crash (cause : String) : Outcome
deriving DecidableEq

/-- Modelled from the spec: the control signal a unit of work returns to the
engine — normal return, an explicit Fail signal (AssertionFailure), an
explicit Skip signal (PrerequisiteUnmet), or an uncontrolled fatal fault
(FatalFault). The engine implementation is absent from src. -/
inductive Signal where
  | normalReturn : Signal
  | assertionFailure (reason : String) : Signal
  | prerequisiteUnmet (reason : String) : Signal
  | fatalFault (cause : String) : Signal
deriving DecidableEq

/-- Modelled from the spec: CrashGuard.runIsolated wraps execution of a unit
of work; controlled Fail/Skip signals become Fail/Skip outcomes, and an
uncontrolled fault is intercepted at the isolation boundary and converted to
Crash(cause) instead of terminating the run. The engine implementation is
absent from src. -/
def CrashGuard.runIsolated : Signal → Outcome
  | Signal.normalReturn => Outcome.pass
  | Signal.assertionFailure r => Outcome.fail r
  | Signal.prerequisiteUnmet r => Outcome.skip r
  | Signal.fatalFault c => Outcome.crash c

/-- Modelled from the spec: the fixture context value shared with enclosed
subtests (an abstract enumeration state, e.g. the number of connected
outputs discovered during fixture setup). -/
abbrev Env := Nat

/-- Modelled from the spec: a unit of work handed to SubtestRunner — a
prerequisite (requirement) check evaluated before the body proper, the skip
reason reported when the requirement is unmet, and the body, which observes
the fixture context and ends in one of the control signals. The engine
implementation is absent from src. -/
structure Body where
  requirement : Env → Bool
  requirementReason : String
  act : Env → Signal

/-- Modelled from the spec: SubtestRunner.run(name, body, activeScopes)
returns Skip — never Fail — when the prerequisite check fails before the
body proper, and otherwise executes the body inside CrashGuard; every
control-flow signal is absorbed into an Outcome value. The engine
implementation is absent from src. -/
def SubtestRunner.run (env : Env) (b : Body) : Outcome :=
  if b.requirement env then CrashGuard.runIsolated (b.act env)
  else Outcome.skip b.requirementReason

/-- Modelled from the spec: EngineConfigurationError — a fatal misuse of the
harness itself (duplicate subtest names / re-recorded outcome), always fatal
to the whole run. The engine implementation is absent from src. -/
inductive EngineConfigurationError where
  | duplicateName (name : String) : EngineConfigurationError
deriving DecidableEq

/-- Modelled from the spec: the RunReport — an insertion-ordered mapping
from subtest name to Outcome. -/
abbrev RunReport := List (String × Outcome)

/-- Modelled from the spec: ResultAggregator — process-wide state collecting
all recorded outcomes in registration order. The engine implementation is
absent from src. -/
structure ResultAggregator where
  report : RunReport
deriving DecidableEq

/-- Modelled from the spec: ResultAggregator.record(name, outcome) fails
(fatally, aborting the whole run) if called twice for the same name;
insertion itself is the uniqueness check, and an existing outcome is never
overwritten. The engine implementation is absent from src. -/
def ResultAggregator.record (agg : ResultAggregator) (n : String) (o : Outcome) :
    Except EngineConfigurationError ResultAggregator :=
  if n ∈ agg.report.map Prod.fst then
    Except.error (EngineConfigurationError.duplicateName n)
  else
    Except.ok { report := agg.report ++ [(n, o)] }

/-- Outcome classification used by the summary counts. -/
def Outcome.isPass : Outcome → Bool
  | Outcome.pass => true
  | _ => false

/-- Outcome classification used by the summary counts. -/
def Outcome.isFail : Outcome → Bool
  | Outcome.fail _ => true
  | _ => false

/-- Outcome classification used by the summary counts. -/
def Outcome.isSkip : Outcome → Bool
  | Outcome.skip _ => true
  | _ => false

/-- Outcome classification used by the summary counts. -/
def Outcome.isCrash : Outcome → Bool
  | Outcome.crash _ => true
  | _ => false

/-- Modelled from the spec: an outcome counts toward run failure exactly
when it is Fail or Crash; Skip alone never causes failure. -/
def Outcome.countsAsFailure (o : Outcome) : Bool :=
  o.isFail || o.isCrash

/-- Modelled from the spec: the summary produced by finalize — total,
passed, failed, skipped, crashed counts plus the process exit code. -/
structure RunSummary where
  total : Nat
  passed : Nat
  failed : Nat
  skipped : Nat
  crashed : Nat
  exitCode : Nat
deriving DecidableEq

/-- Modelled from the spec: ResultAggregator.finalize computes the summary
counts and the overall exit status — failure (nonzero) if any Fail or Crash
exists, success (0) otherwise. The engine implementation is absent from
src. -/
def ResultAggregator.finalize (agg : ResultAggregator) : RunSummary :=
  { total := agg.report.length
  , passed := (agg.report.filter (fun p => p.2.isPass)).length
  , failed := (agg.report.filter (fun p => p.2.isFail)).length
  , skipped := (agg.report.filter (fun p => p.2.isSkip)).length
  , crashed := (agg.report.filter (fun p => p.2.isCrash)).length
  , exitCode := if agg.report.any (fun p => p.2.countsAsFailure) then 1 else 0 }

/-- Modelled from the spec: the output of evaluating a DynamicGroup's
generator at the point control flow reaches the group — the (resolved name,
body) pairs it yields, together with an optional fault position: faultAfter
= some k means the generator itself faults after yielding its first k
pairs (FatalFault with cause faultCause), so later pairs are never
produced. The engine implementation is absent from src. -/
structure GenOutput where
  yields : List (String × Body)
  faultAfter : Option Nat
  faultCause : String

/-- Modelled from the spec: a ScopeEntry of a TestSuite — a tagged variant
among Fixture(setup, teardown) bracketing an inner group, Subtest(name,
body) and DynamicGroup(name_template, generator); nop and seq represent the
empty sequence and ordered concatenation of entries (insertion order
preserved). The generator is a function of the fixture context, evaluated
only when control flow reaches the group. The engine implementation is
absent from src. -/
inductive Entry where
  | nop : Entry
  | sub (name : String) (body : Body) : Entry
  | dyn (groupName : String) (generator : Env → GenOutput) : Entry
  | fixture (id : Nat) (setup : Env → Env) (inner : Entry) : Entry
  | seq (e1 e2 : Entry) : Entry

/-- Modelled from the spec: the observable events of a run — a FixtureScope
with identifier id being entered (its setup running) or exited (its
teardown running), and a subtest with a given resolved name being executed.
The engine implementation is absent from src. -/
inductive Event where
  | setup (id : Nat) : Event
  | teardown (id : Nat) : Event
  | ran (name : String) : Event
deriving DecidableEq

/-- Modelled from the spec: running a sequence of dynamically yielded
(name, body) pairs — each pair is handed individually to SubtestRunner as
though it were statically declared, and its outcome recorded; a duplicate
resolved name makes record fail, which halts further recording. The engine
implementation is absent from src. -/
def runPairs (env : Env) (agg : ResultAggregator) :
    List (String × Body) → Except EngineConfigurationError (ResultAggregator × List Event)
  | [] => Except.ok (agg, [])
  | (n, b) :: ps =>
    match agg.record n (SubtestRunner.run env b) with
    | Except.error e => Except.error e
    | Except.ok agg1 =>
      match runPairs env agg1 ps with
      | Except.error e => Except.error e
      | Except.ok (agg2, tr) => Except.ok (agg2, Event.ran n :: tr)

/-- Modelled from the spec: DynamicSubtestExpander running one dynamic
group from its generator's output — when the generator faults after
yielding k pairs, only those k pairs are run and a single Crash attributed
to the group is recorded; no further expansion is attempted for that
group. The engine implementation is absent from src. -/
def runDynamicGroup (env : Env) (agg : ResultAggregator) (g : String) (out : GenOutput) :
    Except EngineConfigurationError (ResultAggregator × List Event) :=
  match out.faultAfter with
  | none => runPairs env agg out.yields
  | some k =>
    match runPairs env agg (out.yields.take k) with
    | Except.error e => Except.error e
    | Except.ok (agg1, tr) =>
      match agg1.record g (Outcome.crash out.faultCause) with
      | Except.error e => Except.error e
      | Except.ok agg2 => Except.ok (agg2, tr ++ [Event.ran g])

/-- Modelled from the spec: the single logical thread of control driving a
run — entries execute one at a time in declaration order; entering a
Fixture runs its setup to produce the context its inner group sees, and its
teardown runs when the scope block is exited; a DynamicGroup's generator is
evaluated at the point control reaches it; an EngineConfigurationError
aborts the whole run immediately. The engine implementation is absent from
src. -/
def runEntry (env : Env) (agg : ResultAggregator) :
    Entry → Except EngineConfigurationError (ResultAggregator × List Event)
  | Entry.nop => Except.ok (agg, [])
  | Entry.sub n b =>
    match agg.record n (SubtestRunner.run env b) with
    | Except.error e => Except.error e
    | Except.ok agg1 => Except.ok (agg1, [Event.ran n])
  | Entry.dyn g gen => runDynamicGroup env agg g (gen env)
  | Entry.fixture id setupFn inner =>
    match runEntry (setupFn env) agg inner with
    | Except.error e => Except.error e
    | Except.ok (agg1, tr) => Except.ok (agg1, Event.setup id :: (tr ++ [Event.teardown id]))
  | Entry.seq e1 e2 =>
    match runEntry env agg e1 with
    | Except.error e => Except.error e
    | Except.ok (agg1, tr1) =>
      match runEntry env agg1 e2 with
      | Except.error e => Except.error e
      | Except.ok (agg2, tr2) => Except.ok (agg2, tr1 ++ tr2)

/-- Modelled from the spec: the resolved subtest names a dynamic group
contributes to the report — the names of the pairs actually yielded, plus
one entry attributed to the group itself when the generator faults. -/
def dynNames (g : String) (out : GenOutput) : List String :=
  match out.faultAfter with
  | none => out.yields.map Prod.fst
  | some k => (out.yields.take k).map Prod.fst ++ [g]

/-- Modelled from the spec: the subtest names actually reached by a run of
an entry, in declaration/expansion order, with each generator evaluated at
the fixture context in force when control reaches its group. -/
def entryNames (env : Env) : Entry → List String
  | Entry.nop => []
  | Entry.sub n _ => [n]
  | Entry.dyn g gen => dynNames g (gen env)
  | Entry.fixture _ setupFn inner => entryNames (setupFn env) inner
  | Entry.seq e1 e2 => entryNames env e1 ++ entryNames env e2

/-- Modelled from the spec: the state of the engine subsystem declared in
src/example/src/core/engine.h, whose function bodies are absent from src —
whether engine_init has completed. -/
structure EngineState where
  initialized : Bool
deriving DecidableEq

/-- Modelled from the spec: the faults an engine call could raise, used to
make totality of the engine entry points observable (engine_run documents a
precondition that engine_init was called before it). -/
inductive EngineFault where
  | useBeforeInit : EngineFault
deriving DecidableEq

/-- Modelled from the spec: engine_init(flags) from engine.h — initializes
the engine subsystem and returns 0 on success; its body is absent from
src. -/
def engine_init (_flags : Nat) (_s : EngineState) : Int × EngineState :=
  (0, { initialized := true })

/-- Modelled from the spec: engine_shutdown from engine.h — shuts down the
engine and releases resources; its doc comment states it is safe to call
even if engine_init was never called, so it returns normally from every
state. Its body is absent from src. -/
def engine_shutdown (_s : EngineState) : Except EngineFault EngineState :=
  Except.ok { initialized := false }

/-- Modelled from the spec: engine_run(cfg) from engine.h — runs the main
engine loop and returns an exit code; its doc comment requires engine_init
to be called before it. Its body is absent from src. -/
def engine_run (_maxThreads : Int) (s : EngineState) : Except EngineFault (Int × EngineState) :=
  if s.initialized then Except.ok (0, s) else Except.error EngineFault.useBeforeInit

/-- Modelled from the spec: __engine_reset(ctx) from engine.h — the internal
helper that resets the engine state back to its initial configuration; its
doc comment states that calling it with a NULL ctx is a no-op. NULL is
modelled as none. Its body is absent from src. -/
def __engine_reset (ctx : Option Unit) (s : EngineState) : Except EngineFault EngineState :=
  match ctx with
  | none => Except.ok s
  | some _ => Except.ok { initialized := false }

/-- A successful record call means the name was fresh and the outcome was
appended at the end of the report. -/
theorem record_ok (agg agg1 : ResultAggregator) (n : String) (o : Outcome)
    (h : agg.record n o = Except.ok agg1) :
    n ∉ agg.report.map Prod.fst ∧ agg1.report = agg.report ++ [(n, o)] := by
  unfold ResultAggregator.record at h
  split at h
  · exact absurd h (by simp)
  · rename_i hmem
    refine ⟨hmem, ?_⟩
    cases h
    rfl

/-- Appending a fresh element to a duplicate-free list keeps it
duplicate-free. -/
theorem nodup_append_singleton (l : List String) (a : String)
    (h1 : l.Nodup) (h2 : a ∉ l) : (l ++ [a]).Nodup := by
  rw [List.nodup_append]
  refine ⟨h1, List.nodup_singleton a, ?_⟩
  intro x hx hx1
  rw [List.mem_singleton] at hx1
  subst hx1
  exact h2 hx

/-- A successful run of a list of yielded pairs appends exactly their
outcomes to the report, emits exactly their execution events, and preserves
freedom from duplicate names. -/
theorem runPairs_ok (ps : List (String × Body)) :
    ∀ (env : Env) (agg agg2 : ResultAggregator) (tr : List Event),
    runPairs env agg ps = Except.ok (agg2, tr) →
    agg2.report = agg.report ++ ps.map (fun p => (p.1, SubtestRunner.run env p.2))
    ∧ tr = ps.map (fun p => Event.ran p.1)
    ∧ ((agg.report.map Prod.fst).Nodup → (agg2.report.map Prod.fst).Nodup) := by
  induction ps with
  | nil =>
    intro env agg agg2 tr h
    unfold runPairs at h
    cases h
    simp
  | cons p ps ih =>
    intro env agg agg2 tr h
    obtain ⟨n, b⟩ := p
    cases hrec : agg.record n (SubtestRunner.run env b) with
    | error e => simp [runPairs, hrec] at h
    | ok agg1 =>
      cases hps : runPairs env agg1 ps with
      | error e => simp [runPairs, hrec, hps] at h
      | ok res =>
        obtain ⟨agg2b, trb⟩ := res
        simp only [runPairs, hrec, hps, Except.ok.injEq, Prod.mk.injEq] at h
        obtain ⟨h1, h2⟩ := h
        subst h1
        subst h2
        obtain ⟨hfresh, hrep⟩ := record_ok agg agg1 n (SubtestRunner.run env b) hrec
        obtain ⟨ihrep, ihtr, ihnodup⟩ := ih env agg1 agg2b trb hps
        refine ⟨?_, ?_, ?_⟩
        · rw [ihrep, hrep]
          simp
        · rw [ihtr]
          simp
        · intro hnd
          apply ihnodup
          rw [hrep]
          simp only [List.map_append, List.map_cons, List.map_nil]
          exact nodup_append_singleton _ _ hnd hfresh

/-- A successful run of one dynamic group appends exactly the names the
group resolves (its yielded pairs, plus the group itself when its generator
faults), preserves freedom from duplicate names, and emits only subtest
execution events. -/
theorem runDynamicGroup_ok (env : Env) (agg agg2 : ResultAggregator)
    (g : String) (out : GenOutput) (tr : List Event)
    (h : runDynamicGroup env agg g out = Except.ok (agg2, tr)) :
    agg2.report.map Prod.fst = agg.report.map Prod.fst ++ dynNames g out
    ∧ ((agg.report.map Prod.fst).Nodup → (agg2.report.map Prod.fst).Nodup)
    ∧ ∀ ev ∈ tr, ∃ n, ev = Event.ran n := by
  cases hfa : out.faultAfter with
  | none =>
    simp only [runDynamicGroup, hfa] at h
    obtain ⟨hrep, htr, hnd⟩ := runPairs_ok out.yields env agg agg2 tr h
    refine ⟨?_, hnd, ?_⟩
    · simp only [dynNames, hfa]
      rw [hrep]
      simp
    · intro ev hev
      rw [htr] at hev
      simp only [List.mem_map] at hev
      obtain ⟨p, _, hp⟩ := hev
      exact ⟨p.1, hp.symm⟩
  | some k =>
    cases hps : runPairs env agg (out.yields.take k) with
    | error e => simp [runDynamicGroup, hfa, hps] at h
    | ok res =>
      obtain ⟨agg1, tr1⟩ := res
      cases hrec : agg1.record g (Outcome.crash out.faultCause) with
      | error e => simp [runDynamicGroup, hfa, hps, hrec] at h
      | ok agg2b =>
        simp only [runDynamicGroup, hfa, hps, hrec, Except.ok.injEq, Prod.mk.injEq] at h
        obtain ⟨h1, h2⟩ := h
        subst h1
        subst h2
        simp only [dynNames, hfa]
        obtain ⟨hrep1, htr1, hnd1⟩ := runPairs_ok (out.yields.take k) env agg agg1 tr1 hps
        obtain ⟨hfreshg, hrepg⟩ := record_ok agg1 agg2b g (Outcome.crash out.faultCause) hrec
        refine ⟨?_, ?_, ?_⟩
        · rw [hrepg, hrep1]
          simp only [List.map_append, List.map_map, List.map_cons, List.map_nil, List.append_assoc]
          rfl
        · intro hnd
          rw [hrepg]
          simp only [List.map_append, List.map_cons, List.map_nil]
          exact nodup_append_singleton _ _ (hnd1 hnd) hfreshg
        · intro ev hev
          rw [htr1] at hev
          simp only [List.mem_append, List.mem_map, List.mem_singleton] at hev
          cases hev with
          | inl hl =>
            obtain ⟨p, _, hp⟩ := hl
            exact ⟨p.1, hp.symm⟩
          | inr hr => exact ⟨g, hr⟩

/-- A trace containing only subtest execution events has no setup or
teardown events to count. -/
theorem count_scope_events_zero (tr : List Event) (hran : ∀ ev ∈ tr, ∃ n, ev = Event.ran n) :
    ∀ id, tr.count (Event.teardown id) = 0 ∧ tr.count (Event.setup id) = 0 := by
  intro id
  constructor
  · apply List.count_eq_zero.mpr
    intro hmem
    obtain ⟨n, hn⟩ := hran _ hmem
    exact Event.noConfusion hn
  · apply List.count_eq_zero.mpr
    intro hmem
    obtain ⟨n, hn⟩ := hran _ hmem
    exact Event.noConfusion hn

/-- The central run lemma: a successful run of an entry appends exactly the
names actually reached (static and dynamically expanded, in order) to the
report, preserves freedom from duplicate names, and its trace carries
exactly one teardown event for every setup event of each scope
identifier. -/
theorem runEntry_ok (e : Entry) :
    ∀ (env : Env) (agg agg2 : ResultAggregator) (tr : List Event),
    runEntry env agg e = Except.ok (agg2, tr) →
    agg2.report.map Prod.fst = agg.report.map Prod.fst ++ entryNames env e
    ∧ ((agg.report.map Prod.fst).Nodup → (agg2.report.map Prod.fst).Nodup)
    ∧ ∀ id, tr.count (Event.teardown id) = tr.count (Event.setup id) := by
  induction e with
  | nop =>
    intro env agg agg2 tr h
    simp only [runEntry, Except.ok.injEq, Prod.mk.injEq] at h
    obtain ⟨h1, h2⟩ := h
    subst h1
    subst h2
    simp [entryNames]
  | sub n b =>
    intro env agg agg2 tr h
    cases hrec : agg.record n (SubtestRunner.run env b) with
    | error e => simp [runEntry, hrec] at h
    | ok agg1 =>
      simp only [runEntry, hrec, Except.ok.injEq, Prod.mk.injEq] at h
      obtain ⟨h1, h2⟩ := h
      subst h1
      subst h2
      obtain ⟨hfresh, hrep⟩ := record_ok agg agg1 n (SubtestRunner.run env b) hrec
      refine ⟨?_, ?_, ?_⟩
      · rw [hrep]
        simp [entryNames]
      · intro hnd
        rw [hrep]
        simp only [List.map_append, List.map_cons, List.map_nil]
        exact nodup_append_singleton _ _ hnd hfresh
      · intro id
        obtain ⟨hz1, hz2⟩ := count_scope_events_zero [Event.ran n] (by simp) id
        rw [hz1, hz2]
  | dyn g gen =>
    intro env agg agg2 tr h
    simp only [runEntry] at h
    obtain ⟨hkeys, hnd, hran⟩ := runDynamicGroup_ok env agg agg2 g (gen env) tr h
    refine ⟨?_, hnd, ?_⟩
    · rw [hkeys]
      simp [entryNames]
    · intro id
      obtain ⟨hz1, hz2⟩ := count_scope_events_zero tr hran id
      rw [hz1, hz2]
  | fixture id0 setupFn inner ih =>
    intro env agg agg2 tr h
    cases hin : runEntry (setupFn env) agg inner with
    | error e => simp [runEntry, hin] at h
    | ok res =>
      obtain ⟨agg1, tr1⟩ := res
      simp only [runEntry, hin, Except.ok.injEq, Prod.mk.injEq] at h
      obtain ⟨h1, h2⟩ := h
      subst h1
      subst h2
      obtain ⟨ihk, ihnd, ihcnt⟩ := ih (setupFn env) agg agg1 tr1 hin
      refine ⟨?_, ihnd, ?_⟩
      · rw [ihk]
        simp [entryNames]
      · intro id
        by_cases hid : id = id0
        · subst hid
          simp [List.count_cons, List.count_append, ihcnt id]
        · simp [List.count_cons, List.count_append, ihcnt id, hid]
  | seq e1 e2 ih1 ih2 =>
    intro env agg agg2 tr h
    cases h1 : runEntry env agg e1 with
    | error e => simp [runEntry, h1] at h
    | ok res1 =>
      obtain ⟨agg1, tr1⟩ := res1
      cases h2 : runEntry env agg1 e2 with
      | error e => simp [runEntry, h1, h2] at h
      | ok res2 =>
        obtain ⟨agg2b, tr2⟩ := res2
        simp only [runEntry, h1, h2, Except.ok.injEq, Prod.mk.injEq] at h
        obtain ⟨hq1, hq2⟩ := h
        subst hq1
        subst hq2
        obtain ⟨ihk1, ihnd1, ihcnt1⟩ := ih1 env agg agg1 tr1 h1
        obtain ⟨ihk2, ihnd2, ihcnt2⟩ := ih2 env agg1 agg2b tr2 h2
        refine ⟨?_, ?_, ?_⟩
        · rw [ihk2, ihk1]
          simp [entryNames]
        · intro hnd
          exact ihnd2 (ihnd1 hnd)
        · intro id
          simp [List.count_append, ihcnt1 id, ihcnt2 id]

/-- In a report free of duplicate names, each name determines its
outcome. -/
theorem nodup_assoc_unique (l : RunReport) :
    (l.map Prod.fst).Nodup → ∀ (n : String) (o1 o2 : Outcome),
    (n, o1) ∈ l → (n, o2) ∈ l → o1 = o2 := by
  induction l with
  | nil =>
    intro _ n o1 o2 h1 _
    cases h1
  | cons p t ih =>
    intro hnd n o1 o2 h1 h2
    simp only [List.map_cons, List.nodup_cons] at hnd
    obtain ⟨hp, ht⟩ := hnd
    cases h1 with
    | head =>
      cases h2 with
      | head => rfl
      | tail _ h2t =>
        exact absurd (List.mem_map.mpr ⟨(n, o2), h2t, rfl⟩) hp
    | tail _ h1t =>
      cases h2 with
      | head =>
        exact absurd (List.mem_map.mpr ⟨(n, o1), h1t, rfl⟩) hp
      | tail _ h2t => exact ih ht n o1 o2 h1t h2t

/-- An outcome counts as failure exactly when it is a Fail or a Crash. -/
theorem countsAsFailure_iff (o : Outcome) :
    o.countsAsFailure = true ↔ (∃ r, o = Outcome.fail r) ∨ ∃ c, o = Outcome.crash c := by
  cases o <;> simp [Outcome.countsAsFailure, Outcome.isFail, Outcome.isCrash]

/-- Claim C1: for every completed run, ResultAggregator.finalize yields an
overall exit status of failure (nonzero exit code) if and only if at least
one recorded Outcome is Fail or Crash; a run whose recorded outcomes are
only Pass and Skip exits with success (exit code 0), so Skip outcomes never
change the exit status from success to failure. -/
theorem c1_finalize_exit_status (agg : ResultAggregator) :
    ((agg.finalize).exitCode ≠ 0 ↔
      ∃ p, p ∈ agg.report ∧ ((∃ r, p.2 = Outcome.fail r) ∨ ∃ c, p.2 = Outcome.crash c))
    ∧ ((∀ p, p ∈ agg.report → p.2 = Outcome.pass ∨ ∃ r, p.2 = Outcome.skip r) →
      (agg.finalize).exitCode = 0) := by
  have hmain : (agg.finalize).exitCode ≠ 0 ↔
      agg.report.any (fun p => p.2.countsAsFailure) = true := by
    unfold ResultAggregator.finalize
    by_cases hany : agg.report.any (fun p => p.2.countsAsFailure) = true
    · simp [hany]
    · simp [hany]
  constructor
  · rw [hmain, List.any_eq_true]
    constructor
    · intro hex
      obtain ⟨p, hp, hf⟩ := hex
      exact ⟨p, hp, (countsAsFailure_iff p.2).mp hf⟩
    · intro hex
      obtain ⟨p, hp, hf⟩ := hex
      exact ⟨p, hp, (countsAsFailure_iff p.2).mpr hf⟩
  · intro hall
    unfold ResultAggregator.finalize
    simp only [ite_eq_right_iff]
    intro hany
    exfalso
    rw [List.any_eq_true] at hany
    obtain ⟨p, hp, hf⟩ := hany
    rcases hall p hp with hpass | ⟨r, hskip⟩
    · rw [hpass] at hf
      simp [Outcome.countsAsFailure, Outcome.isFail, Outcome.isCrash] at hf
    · rw [hskip] at hf
      simp [Outcome.countsAsFailure, Outcome.isFail, Outcome.isCrash] at hf

/-- Witness for C1: a report holding one Pass and one Skip finalizes to
exit code 0. -/
theorem c1_witness :
    (ResultAggregator.mk
      [(("a" : String), Outcome.pass), (("b" : String), Outcome.skip ("unsupported"))]).finalize.exitCode = 0 :=
  (c1_finalize_exit_status
    (ResultAggregator.mk
      [(("a" : String), Outcome.pass), (("b" : String), Outcome.skip ("unsupported"))])).2
    (by
      intro p hp
      simp only [List.mem_cons, List.mem_singleton, List.not_mem_nil] at hp
      rcases hp with h | h | h
      · subst h
        exact Or.inl rfl
      · subst h
        exact Or.inr ⟨("unsupported"), rfl⟩
      · cases h)

/-- Claim C2: for every FixtureScope entered during a completed run its
teardown runs exactly once when the scope is exited — the trace carries
exactly one teardown event per setup event of each scope identifier, for
every combination of contained subtest outcomes including Crash — and the
trace of a fixture entry is exactly its setup, the inner trace, then its
teardown. -/
theorem c2_fixture_teardown_once (env : Env) (agg agg2 : ResultAggregator)
    (e : Entry) (tr : List Event)
    (h : runEntry env agg e = Except.ok (agg2, tr)) :
    (∀ id, tr.count (Event.teardown id) = tr.count (Event.setup id))
    ∧ ∀ id setupFn inner, e = Entry.fixture id setupFn inner →
        ∃ innerTr, tr = Event.setup id :: (innerTr ++ [Event.teardown id]) := by
  refine ⟨(runEntry_ok e env agg agg2 tr h).2.2, ?_⟩
  intro id setupFn inner he
  subst he
  cases hin : runEntry (setupFn env) agg inner with
  | error e2 => simp [runEntry, hin] at h
  | ok res =>
    obtain ⟨agg1, tr1⟩ := res
    simp only [runEntry, hin, Except.ok.injEq, Prod.mk.injEq] at h
    exact ⟨tr1, h.2.symm⟩

/-- Witness for C2: a fixture whose only subtest crashes still has its
teardown run exactly once. -/
theorem c2_witness :
    (∀ id, ([Event.setup 7, Event.ran ("a"), Event.teardown 7] : List Event).count (Event.teardown id) =
      ([Event.setup 7, Event.ran ("a"), Event.teardown 7] : List Event).count (Event.setup id))
    ∧ ∀ id setupFn inner,
      Entry.fixture 7 (fun e : Env => e)
        (Entry.sub ("a") (Body.mk (fun _ => true) ("") (fun _ => Signal.fatalFault ("SIGSEGV")))) =
        Entry.fixture id setupFn inner →
      ∃ innerTr, ([Event.setup 7, Event.ran ("a"), Event.teardown 7] : List Event) =
        Event.setup id :: (innerTr ++ [Event.teardown id]) :=
  c2_fixture_teardown_once 0 (ResultAggregator.mk [])
    (ResultAggregator.mk [(("a" : String), Outcome.crash ("SIGSEGV"))])
    (Entry.fixture 7 (fun e : Env => e)
      (Entry.sub ("a") (Body.mk (fun _ => true) ("") (fun _ => Signal.fatalFault ("SIGSEGV")))))
    [Event.setup 7, Event.ran ("a"), Event.teardown 7] rfl

/-- Claim C3: a unit of work ending in an uncontrolled fault is converted
by CrashGuard.runIsolated into Crash(cause) instead of terminating the run,
and the next subtest in the suite still executes afterwards: the run of the
two-subtest suite completes with the crash recorded for the first subtest,
the second subtest's outcome recorded, and both execution events in the
trace. -/
theorem c3_crash_contained (env : Env) (c n1 n2 : String) (b1 b2 : Body)
    (hreq : b1.requirement env = true)
    (hact : b1.act env = Signal.fatalFault c)
    (hne : n1 ≠ n2) :
    CrashGuard.runIsolated (Signal.fatalFault c) = Outcome.crash c
    ∧ runEntry env (ResultAggregator.mk [])
        (Entry.seq (Entry.sub n1 b1) (Entry.sub n2 b2)) =
      Except.ok (ResultAggregator.mk [(n1, Outcome.crash c), (n2, SubtestRunner.run env b2)],
        [Event.ran n1, Event.ran n2]) := by
  refine ⟨rfl, ?_⟩
  have hrun1 : SubtestRunner.run env b1 = Outcome.crash c := by
    unfold SubtestRunner.run
    rw [hreq, hact]
    simp [CrashGuard.runIsolated]
  simp [runEntry, ResultAggregator.record, hrun1, Ne.symm hne]

/-- Witness for C3: a SIGBUS fault in the first subtest is recorded as Crash
and the second subtest still runs. -/
theorem c3_witness :
    CrashGuard.runIsolated (Signal.fatalFault ("SIGBUS")) = Outcome.crash ("SIGBUS")
    ∧ runEntry 0 (ResultAggregator.mk [])
        (Entry.seq
          (Entry.sub ("x") (Body.mk (fun _ => true) ("") (fun _ => Signal.fatalFault ("SIGBUS"))))
          (Entry.sub ("y") (Body.mk (fun _ => true) ("") (fun _ => Signal.normalReturn)))) =
      Except.ok (ResultAggregator.mk
          [(("x" : String), Outcome.crash ("SIGBUS")),
           (("y" : String), SubtestRunner.run 0 (Body.mk (fun _ => true) ("") (fun _ => Signal.normalReturn)))],
        [Event.ran ("x"), Event.ran ("y")]) :=
  c3_crash_contained 0 ("SIGBUS") ("x") ("y")
    (Body.mk (fun _ => true) ("") (fun _ => Signal.fatalFault ("SIGBUS")))
    (Body.mk (fun _ => true) ("") (fun _ => Signal.normalReturn))
    rfl rfl (by decide)

/-- Claim C4: after a completed run, the number of recorded outcomes equals
the number of subtests actually reached (static plus dynamically expanded),
the recorded names are exactly the reached names, each name appears exactly
once, and every reached subtest has exactly one Outcome. -/
theorem c4_report_complete (env : Env) (e : Entry) (agg2 : ResultAggregator) (tr : List Event)
    (h : runEntry env (ResultAggregator.mk []) e = Except.ok (agg2, tr)) :
    agg2.report.length = (entryNames env e).length
    ∧ agg2.report.map Prod.fst = entryNames env e
    ∧ (agg2.report.map Prod.fst).Nodup
    ∧ ∀ n, n ∈ entryNames env e → ∃! o, (n, o) ∈ agg2.report := by
  obtain ⟨hk, hnd, -⟩ := runEntry_ok e env (ResultAggregator.mk []) agg2 tr h
  have hkeys : agg2.report.map Prod.fst = entryNames env e := by simpa using hk
  have hnodup : (agg2.report.map Prod.fst).Nodup := hnd (by simp)
  refine ⟨?_, hkeys, hnodup, ?_⟩
  · rw [← hkeys]
    simp
  · intro n hn
    rw [← hkeys] at hn
    obtain ⟨p, hp, hpn⟩ := List.mem_map.mp hn
    refine ⟨p.2, ?_, ?_⟩
    · obtain ⟨p1, p2⟩ := p
      cases hpn
      exact hp
    · intro o ho
      apply nodup_assoc_unique agg2.report hnodup n o p.2 ho
      obtain ⟨p1, p2⟩ := p
      cases hpn
      exact hp

/-- Witness for C4: a run with one static subtest and a two-variant dynamic
group records exactly the three reached names, each once. -/
theorem c4_witness :
    (ResultAggregator.mk
      [(("s" : String), Outcome.pass), (("v1" : String), Outcome.pass), (("v2" : String), Outcome.pass)]).report.length =
      (entryNames 0 (Entry.seq
        (Entry.sub ("s") (Body.mk (fun _ => true) ("") (fun _ => Signal.normalReturn)))
        (Entry.dyn ("grp") (fun _ => GenOutput.mk
          [(("v1" : String), Body.mk (fun _ => true) ("") (fun _ => Signal.normalReturn)),
           (("v2" : String), Body.mk (fun _ => true) ("") (fun _ => Signal.normalReturn))] none (""))))).length
    ∧ (ResultAggregator.mk
      [(("s" : String), Outcome.pass), (("v1" : String), Outcome.pass), (("v2" : String), Outcome.pass)]).report.map Prod.fst =
      entryNames 0 (Entry.seq
        (Entry.sub ("s") (Body.mk (fun _ => true) ("") (fun _ => Signal.normalReturn)))
        (Entry.dyn ("grp") (fun _ => GenOutput.mk
          [(("v1" : String), Body.mk (fun _ => true) ("") (fun _ => Signal.normalReturn)),
           (("v2" : String), Body.mk (fun _ => true) ("") (fun _ => Signal.normalReturn))] none (""))))
    ∧ ((ResultAggregator.mk
      [(("s" : String), Outcome.pass), (("v1" : String), Outcome.pass), (("v2" : String), Outcome.pass)]).report.map Prod.fst).Nodup
    ∧ ∀ n, n ∈ entryNames 0 (Entry.seq
        (Entry.sub ("s") (Body.mk (fun _ => true) ("") (fun _ => Signal.normalReturn)))
        (Entry.dyn ("grp") (fun _ => GenOutput.mk
          [(("v1" : String), Body.mk (fun _ => true) ("") (fun _ => Signal.normalReturn)),
           (("v2" : String), Body.mk (fun _ => true) ("") (fun _ => Signal.normalReturn))] none ("")))) →
      ∃! o, (n, o) ∈ (ResultAggregator.mk
        [(("s" : String), Outcome.pass), (("v1" : String), Outcome.pass), (("v2" : String), Outcome.pass)]).report :=
  c4_report_complete 0
    (Entry.seq
      (Entry.sub ("s") (Body.mk (fun _ => true) ("") (fun _ => Signal.normalReturn)))
      (Entry.dyn ("grp") (fun _ => GenOutput.mk
        [(("v1" : String), Body.mk (fun _ => true) ("") (fun _ => Signal.normalReturn)),
         (("v2" : String), Body.mk (fun _ => true) ("") (fun _ => Signal.normalReturn))] none (""))))
    (ResultAggregator.mk
      [(("s" : String), Outcome.pass), (("v1" : String), Outcome.pass), (("v2" : String), Outcome.pass)])
    [Event.ran ("s"), Event.ran ("v1"), Event.ran ("v2")] rfl

/-- Claim C5: recording an outcome under an already-present subtest name —
directly or from a dynamic expansion resolving an already-used name —
raises the fatal EngineConfigurationError duplicateName, which aborts the
run and halts further recording; the existing outcome is never
overwritten. -/
theorem c5_duplicate_record_fatal (agg : ResultAggregator) (n : String) (o : Outcome)
    (b : Body) (rest : List (String × Body)) (env : Env)
    (hmem : n ∈ agg.report.map Prod.fst) :
    agg.record n o = Except.error (EngineConfigurationError.duplicateName n)
    ∧ runPairs env agg ((n, b) :: rest) = Except.error (EngineConfigurationError.duplicateName n) := by
  have hrecAll : ∀ o2 : Outcome,
      agg.record n o2 = Except.error (EngineConfigurationError.duplicateName n) := by
    intro o2
    unfold ResultAggregator.record
    rw [if_pos hmem]
  refine ⟨hrecAll o, ?_⟩
  simp [runPairs, hrecAll (SubtestRunner.run env b)]

/-- Witness for C5: recording a second outcome for an already-recorded name
fails with duplicateName rather than overwriting, both directly and from a
dynamic expansion. -/
theorem c5_witness :
    (ResultAggregator.mk [(("a" : String), Outcome.pass)]).record ("a") (Outcome.fail ("again")) =
      Except.error (EngineConfigurationError.duplicateName ("a"))
    ∧ runPairs 0 (ResultAggregator.mk [(("a" : String), Outcome.pass)])
        [(("a" : String), Body.mk (fun _ => true) ("") (fun _ => Signal.normalReturn))] =
      Except.error (EngineConfigurationError.duplicateName ("a")) :=
  c5_duplicate_record_fatal (ResultAggregator.mk [(("a" : String), Outcome.pass)])
    ("a") (Outcome.fail ("again"))
    (Body.mk (fun _ => true) ("") (fun _ => Signal.normalReturn)) [] 0 (by decide)

/-- Claim C6: when a subtest's prerequisite check fails before the body
proper, SubtestRunner.run returns Skip — never Fail — and for every body
whatsoever run returns an Outcome value with no control-flow signal
escaping its boundary: its result is either the requirement Skip or the
CrashGuard-absorbed outcome of the body's signal. -/
theorem c6_requirement_skip_absorbed (env : Env) (b : Body) :
    (b.requirement env = false →
      SubtestRunner.run env b = Outcome.skip b.requirementReason
      ∧ ∀ r, SubtestRunner.run env b ≠ Outcome.fail r)
    ∧ (SubtestRunner.run env b = Outcome.skip b.requirementReason
      ∨ SubtestRunner.run env b = CrashGuard.runIsolated (b.act env)) := by
  constructor
  · intro hreq
    have hrun : SubtestRunner.run env b = Outcome.skip b.requirementReason := by
      unfold SubtestRunner.run
      rw [hreq]
      simp
    refine ⟨hrun, ?_⟩
    intro r hc
    rw [hrun] at hc
    exact Outcome.noConfusion hc
  · unfold SubtestRunner.run
    by_cases hreq : b.requirement env = true
    · rw [if_pos hreq]
      exact Or.inr rfl
    · rw [if_neg hreq]
      exact Or.inl rfl

/-- Witness for C6: a subtest whose requirement check fails is reported as
Skip with its requirement reason and is not a Fail. -/
theorem c6_witness :
    (SubtestRunner.run 0 (Body.mk (fun _ => false) ("needs hw") (fun _ => Signal.assertionFailure ("boom"))) =
      Outcome.skip ((Body.mk (fun _ => false) ("needs hw") (fun _ => Signal.assertionFailure ("boom"))).requirementReason)
    ∧ ∀ r, SubtestRunner.run 0 (Body.mk (fun _ => false) ("needs hw") (fun _ => Signal.assertionFailure ("boom"))) ≠
        Outcome.fail r) :=
  (c6_requirement_skip_absorbed 0
    (Body.mk (fun _ => false) ("needs hw") (fun _ => Signal.assertionFailure ("boom")))).1 rfl

/-- Claim C7: when a dynamic group's generator faults after yielding some
pairs, the completed run's report gains exactly the outcomes of the pairs
already yielded plus one Crash entry attributed to the group, and no entry
for any fresh name the generator would have yielded later; no further
expansion is attempted for that group. -/
theorem c7_generator_fault_crash (env : Env) (agg agg2 : ResultAggregator) (g : String)
    (gen : Env → GenOutput) (k : Nat) (tr : List Event)
    (hfa : (gen env).faultAfter = some k)
    (h : runEntry env agg (Entry.dyn g gen) = Except.ok (agg2, tr)) :
    agg2.report = agg.report
      ++ ((gen env).yields.take k).map (fun p => (p.1, SubtestRunner.run env p.2))
      ++ [(g, Outcome.crash (gen env).faultCause)]
    ∧ ∀ n, n ∉ agg.report.map Prod.fst → n ∉ ((gen env).yields.take k).map Prod.fst →
        n ≠ g → n ∉ agg2.report.map Prod.fst := by
  simp only [runEntry] at h
  obtain ⟨hkeys, -, -⟩ := runDynamicGroup_ok env agg agg2 g (gen env) tr h
  constructor
  · cases hps : runPairs env agg ((gen env).yields.take k) with
    | error e => simp [runDynamicGroup, hfa, hps] at h
    | ok res =>
      obtain ⟨agg1, tr1⟩ := res
      cases hrec : agg1.record g (Outcome.crash (gen env).faultCause) with
      | error e => simp [runDynamicGroup, hfa, hps, hrec] at h
      | ok agg2b =>
        simp only [runDynamicGroup, hfa, hps, hrec, Except.ok.injEq, Prod.mk.injEq] at h
        obtain ⟨h1, -⟩ := h
        subst h1
        obtain ⟨hrep1, -, -⟩ := runPairs_ok ((gen env).yields.take k) env agg agg1 tr1 hps
        obtain ⟨-, hrepg⟩ := record_ok agg1 agg2b g (Outcome.crash (gen env).faultCause) hrec
        rw [hrepg, hrep1, List.append_assoc]
  · intro n hn1 hn2 hng hmem
    rw [hkeys] at hmem
    simp only [dynNames, hfa, List.mem_append, List.mem_singleton] at hmem
    rcases hmem with hmem | hmem | hmem
    · exact hn1 hmem
    · exact hn2 hmem
    · exact hng hmem

/-- Witness for C7: a generator that faults after yielding one of its two
pairs produces that pair's outcome plus one Crash attributed to the group,
and no entry for the unreached second pair. -/
theorem c7_witness :
    (ResultAggregator.mk [(("v1" : String), Outcome.pass), (("grp" : String), Outcome.crash ("SIGSEGV"))]).report =
      (ResultAggregator.mk []).report
      ++ (((fun _ : Env => GenOutput.mk
            [(("v1" : String), Body.mk (fun _ => true) ("") (fun _ => Signal.normalReturn)),
             (("v2" : String), Body.mk (fun _ => true) ("") (fun _ => Signal.normalReturn))]
            (some 1) ("SIGSEGV")) 0).yields.take 1).map
          (fun p => (p.1, SubtestRunner.run 0 p.2))
      ++ [(("grp" : String), Outcome.crash (((fun _ : Env => GenOutput.mk
            [(("v1" : String), Body.mk (fun _ => true) ("") (fun _ => Signal.normalReturn)),
             (("v2" : String), Body.mk (fun _ => true) ("") (fun _ => Signal.normalReturn))]
            (some 1) ("SIGSEGV")) 0).faultCause))]
    ∧ ∀ n, n ∉ (ResultAggregator.mk []).report.map Prod.fst →
        n ∉ (((fun _ : Env => GenOutput.mk
            [(("v1" : String), Body.mk (fun _ => true) ("") (fun _ => Signal.normalReturn)),
             (("v2" : String), Body.mk (fun _ => true) ("") (fun _ => Signal.normalReturn))]
            (some 1) ("SIGSEGV")) 0).yields.take 1).map Prod.fst →
        n ≠ ("grp") →
        n ∉ (ResultAggregator.mk [(("v1" : String), Outcome.pass), (("grp" : String), Outcome.crash ("SIGSEGV"))]).report.map Prod.fst :=
  c7_generator_fault_crash 0 (ResultAggregator.mk [])
    (ResultAggregator.mk [(("v1" : String), Outcome.pass), (("grp" : String), Outcome.crash ("SIGSEGV"))])
    ("grp")
    (fun _ : Env => GenOutput.mk
      [(("v1" : String), Body.mk (fun _ => true) ("") (fun _ => Signal.normalReturn)),
       (("v2" : String), Body.mk (fun _ => true) ("") (fun _ => Signal.normalReturn))]
      (some 1) ("SIGSEGV"))
    1 [Event.ran ("v1"), Event.ran ("grp")] rfl rfl

/-- Claim C8: subtests execute one at a time in declaration/expansion order
— the sequence of names in the completed run's report equals the
declaration-order name sequence of the entry tree — and a DynamicGroup is
evaluated only when control flow reaches it: inside a fixture, the
expansion is computed from the context the fixture's setup established, not
from the registration-time context. -/
theorem c8_order_lazy_expansion (env : Env) :
    (∀ (e : Entry) (agg2 : ResultAggregator) (tr : List Event),
      runEntry env (ResultAggregator.mk []) e = Except.ok (agg2, tr) →
      agg2.report.map Prod.fst = entryNames env e)
    ∧ ∀ (id : Nat) (setupFn : Env → Env) (g : String) (gen : Env → GenOutput)
        (agg2 : ResultAggregator) (tr : List Event),
      runEntry env (ResultAggregator.mk []) (Entry.fixture id setupFn (Entry.dyn g gen)) =
        Except.ok (agg2, tr) →
      agg2.report.map Prod.fst = dynNames g (gen (setupFn env)) := by
  constructor
  · intro e agg2 tr h
    obtain ⟨hk, -, -⟩ := runEntry_ok e env (ResultAggregator.mk []) agg2 tr h
    simpa using hk
  · intro id setupFn g gen agg2 tr h
    obtain ⟨hk, -, -⟩ :=
      runEntry_ok (Entry.fixture id setupFn (Entry.dyn g gen)) env (ResultAggregator.mk []) agg2 tr h
    simpa [entryNames] using hk

/-- Witness for C8: a generator whose yield depends on the fixture context
expands using the context the setup established (context 1, name "one"),
demonstrating evaluation at the point control reaches the group. -/
theorem c8_witness :
    (ResultAggregator.mk [(("one" : String), Outcome.pass)]).report.map Prod.fst =
      dynNames ("grp")
        ((fun env : Env => GenOutput.mk
          (if env = 1
            then [(("one" : String), Body.mk (fun _ => true) ("") (fun _ => Signal.normalReturn))]
            else [(("zero" : String), Body.mk (fun _ => true) ("") (fun _ => Signal.normalReturn))])
          none ("")) ((fun _ : Env => 1) 0)) :=
  (c8_order_lazy_expansion 0).2 7 (fun _ : Env => 1) ("grp")
    (fun env : Env => GenOutput.mk
      (if env = 1
        then [(("one" : String), Body.mk (fun _ => true) ("") (fun _ => Signal.normalReturn))]
        else [(("zero" : String), Body.mk (fun _ => true) ("") (fun _ => Signal.normalReturn))])
      none (""))
    (ResultAggregator.mk [(("one" : String), Outcome.pass)])
    [Event.setup 7, Event.ran ("one"), Event.teardown 7] rfl

/-- Claim C9: engine_shutdown is safe to call in every engine state,
including the state in which engine_init was never called — it always
returns normally. -/
theorem c9_engine_shutdown_total :
    (∀ s : EngineState, ∃ s2, engine_shutdown s = Except.ok s2)
    ∧ engine_shutdown (EngineState.mk false) = Except.ok (EngineState.mk false) :=
  ⟨fun _ => ⟨EngineState.mk false, rfl⟩, rfl⟩

/-- Claim C10: calling __engine_reset with a NULL ctx argument is a no-op —
it returns normally and leaves the entire engine state unchanged. -/
theorem c10_engine_reset_null_noop (s : EngineState) :
    __engine_reset none s = Except.ok s := rfl
